import Mathlib

/-!
Shallow embedding of the weather-data pipeline of
`mini_weather_app/dashboard.py`: coordinate validation, the retrying SMHI
fetch, payload normalization (`smhi_to_df`), current-row selection
(`pick_current_row`), the forward time window (`df_window`) and the
degree-to-cardinal helper (`_deg_to_cardinal`), together with theorems
about them. Reals are modelled as rationals; instants as integer seconds.
-/

namespace MiniWeather

/-- A numeric cell as the dashboard sees it: either the `math.nan`
missing-value sentinel or an actual number. -/
inductive Val where
  | nan : Val
  | num (q : ℚ) : Val
deriving DecidableEq

/-- One element of an entry's `parameters` list: a JSON object with an
optional `name` (`p.get("name")`) and an optional or nullable `values`
list (`p.get("values") or []`). -/
structure SmhiParam where
  name : Option String
  values : Option (List Val)
deriving DecidableEq

/-- A `validTime` string as the pipeline observes it through
`dateutil.parser.isoparse`: either unparseable (the parser raises) or
denoting a definite UTC instant, modelled in seconds. A naive timestamp is
given `tzinfo=timezone.utc`, and `astimezone(STHLM_TZ)` keeps the instant,
only changing the display zone, so the instant is all that comparison and
sorting ever see. -/
inductive TimeStr where
  | malformed : TimeStr
  | parses (instant : Int) : TimeStr
deriving DecidableEq

/-- One entry of the `timeSeries` list. `validTime = none` models an entry
whose `validTime` key is absent, on which `item["validTime"]` raises
`KeyError`; `parameters = none` models an absent `parameters` key, which
`item.get("parameters", [])` turns into `[]`. -/
structure TsEntry where
  validTime : Option TimeStr
  parameters : Option (List SmhiParam)
deriving DecidableEq

/-- The decoded SMHI payload. `timeSeries = none` covers both an absent key
and an explicit `null`: `payload.get("timeSeries", []) or []` turns both of
them, and `[]` itself, into the empty list. -/
structure SmhiPayload where
  approvedTime : Option TimeStr
  timeSeries : Option (List TsEntry)
deriving DecidableEq

/-- `_safe_get_param(param_list, name, default)`: scan for the first
parameter whose `name` matches; return the head of its `values` list when
non-empty, the default otherwise; the default again when no name matches.
In the source `default` is `math.nan` unless the caller passes `0.0`. -/
def safe_get_param (ps : List SmhiParam) (n : String) (dflt : Val) : Val :=
  match ps with
  | [] => dflt
  | p :: rest =>
    if p.name = some n then
      match p.values.getD [] with
      | [] => dflt
      | v :: _ => v
    else safe_get_param rest n dflt

/-- `_utc_to_local(ts_iso)`: parse the ISO timestamp (naive timestamps are
taken as UTC) and convert to Europe/Stockholm. A malformed string raises,
modelled as `none`; otherwise the result carries the same instant. -/
def utc_to_local : TimeStr → Option Int
  | .malformed => none
  | .parses t => some t

/-- The 16 compass labels of `_deg_to_cardinal` (Swedish initials). -/
def compassDirs : List String :=
  ["N", "NNO", "NO", "ONO", "O", "OSO", "SO", "SSO",
   "S", "SSV", "SV", "VSV", "V", "VNV", "NV", "NNV"]

/-- `_deg_to_cardinal(deg)`: `"—"` on NaN, otherwise index
`int((deg + 11.25) // 22.5) % 16` into the 16 labels. `//` is floor
division, and Python `%` with a positive modulus is the Euclidean
remainder, matching `Int.emod`; the index is provably below 16, so the
`getD` fallback is never taken. -/
def deg_to_cardinal : Val → String
  | .nan => "—"
  | .num q => compassDirs.getD ((⌊(q + 11.25) / 22.5⌋ % 16).toNat) ("")

/-- One normalized observation row: the dict appended per entry in
`smhi_to_df`, with `time` the parsed instant. -/
structure Row where
  time : Int
  temp_C : Val
  wind_ms : Val
  gust_ms : Val
  precip_mm_h : Val
  cloud_okta : Val
  msl_hPa : Val
  rh_pct : Val
  wind_deg : Val
deriving DecidableEq

/-- The exceptions `smhi_to_df` can raise: `KeyError` from
`item["validTime"]`, a parse error from `dateutil.parser.isoparse`, or the
`KeyError` from `sort_values("time")` when the frame built from an empty
row list has no `time` column. -/
inductive NormErr where
  | keyError : NormErr
  | parseError : NormErr
  | noTimeColumn : NormErr
deriving DecidableEq

/-- The loop body of `smhi_to_df`: read `item["validTime"]` (raising when
the key is absent), parse it, and build the row of the eight tracked
parameters; `pmean` gets default `0.0`, all others `math.nan`. -/
def rowOfEntry (e : TsEntry) : Except NormErr Row :=
  match e.validTime with
  | none => .error .keyError
  | some ts =>
    match utc_to_local ts with
    | none => .error .parseError
    | some t =>
      let ps := e.parameters.getD []
      .ok
        { time := t
          temp_C := safe_get_param ps ("t") .nan
          wind_ms := safe_get_param ps ("ws") .nan
          gust_ms := safe_get_param ps ("gust") .nan
          precip_mm_h := safe_get_param ps ("pmean") (.num 0)
          cloud_okta := safe_get_param ps ("tcc_mean") .nan
          msl_hPa := safe_get_param ps ("msl") .nan
          rh_pct := safe_get_param ps ("r") .nan
          wind_deg := safe_get_param ps ("wd") .nan }

/-- The `for item in ts` loop of `smhi_to_df`: the first raising entry
aborts the whole conversion, otherwise one row per entry, in order. -/
def rowsOf : List TsEntry → Except NormErr (List Row)
  | [] => .ok []
  | e :: es =>
    match rowOfEntry e with
    | .error err => .error err
    | .ok r =>
      match rowsOf es with
      | .error err => .error err
      | .ok rs => .ok (r :: rs)

/-- The row order used by `sort_values("time")`: ascending by time
(timezone-aware datetimes compare by instant). -/
def rowLE (a b : Row) : Prop := a.time ≤ b.time

instance : DecidableRel rowLE :=
  fun a b => inferInstanceAs (Decidable (a.time ≤ b.time))

instance : IsTotal Row rowLE := ⟨fun a b => Int.le_total a.time b.time⟩

instance : IsTrans Row rowLE := ⟨fun _ _ _ h h2 => le_trans h h2⟩

/-- The post-pass `df["precip_mm_h"].fillna(0.0)` applied to one row: a
precipitation cell that is still NaN is coerced to `0.0`. -/
def fillPrecip (r : Row) : Row :=
  { r with precip_mm_h := match r.precip_mm_h with | .nan => .num 0 | v => v }

/-- `smhi_to_df(payload)`: take `timeSeries` (absent, null and empty all
give the empty list), convert every entry to a row (the first bad entry
raises), then `pd.DataFrame(rows).sort_values("time")`. When `rows` is
empty the frame has no columns at all — the source's own
`if "precip_mm_h" in df` guard attests to that — so `sort_values("time")`
raises `KeyError` on the missing `time` column; with rows present the
frame is sorted ascending by time (modelled with a sort whose output
order is what the claims rely on) and missing precipitation is filled
with `0.0` (mapping the fill over all rows, equivalent to the guarded
column `fillna`). -/
def smhi_to_df (payload : SmhiPayload) : Except NormErr (List Row) :=
  match rowsOf (payload.timeSeries.getD []) with
  | .error err => .error err
  | .ok rows =>
    if rows.isEmpty then .error .noTimeColumn
    else .ok ((List.insertionSort rowLE rows).map fillPrecip)

/-- `abs(row.time - now)`, as a natural number of seconds. -/
def absDist (r : Row) (now : Int) : Nat := (r.time - now).natAbs

/-- The scan behind `Series.idxmin`: keep the current best and replace it
only on a strictly smaller distance, so the first minimum wins. -/
def pickGo (now : Int) (best : Row) : List Row → Row
  | [] => best
  | r :: rs =>
    if absDist r now < absDist best now then pickGo now r rs
    else pickGo now best rs

/-- `pick_current_row(df)`: the row whose time is nearest to `now`
(`(df["time"] - now).abs().idxmin()` then `df.loc[idx]`); on an empty
table the lookup raises, modelled as `none`. -/
def pick_current_row (t : List Row) (now : Int) : Option Row :=
  match t with
  | [] => none
  | r :: rs => some (pickGo now r rs)

/-- The boolean mask
`(df["time"] >= now_local) & (df["time"] <= now_local + pd.Timedelta(hours=hours))`,
with the bound in seconds. -/
def inWindow (now : Int) (hours : Nat) (r : Row) : Bool :=
  decide (now ≤ r.time) && decide (r.time ≤ now + 3600 * (hours : Int))

/-- `df_window`: the rows of the table whose time lies in
`[now, now + hours]`, kept in table order. -/
def df_window (t : List Row) (now : Int) (hours : Nat) : List Row :=
  t.filter (inWindow now hours)

/-- One HTTP response as the fetcher observes it: status code, declared
`Content-Type`, body text (as characters, so truncation counts characters
exactly as Python slicing does), and the outcome of `r.json()`. -/
structure HttpResponse where
  status : Nat
  contentType : String
  body : List Char
  jsonBody : Option SmhiPayload
deriving DecidableEq

/-- The `urllib3.util.retry.Retry` configuration built in
`_requests_session()`. -/
structure RetryCfg where
  total : Nat
  backoffFactor : ℚ
  statusForcelist : List Nat
  allowedMethods : List String
  raiseOnStatus : Bool
deriving DecidableEq

/-- The values from `_requests_session()`:
`Retry(total=3, backoff_factor=0.5, status_forcelist=[429, 500, 502, 503, 504],
allowed_methods=["GET"], raise_on_status=False)`. -/
def retryCfg : RetryCfg :=
  { total := 3
    backoffFactor := 0.5
    statusForcelist := [429, 500, 502, 503, 504]
    allowedMethods := ["GET"]
    raiseOnStatus := false }

/-- Modelled from the spec: the sleep schedule of the retrying session is
implemented inside `urllib3`, outside these sources; the spec describes it
as exponential backoff starting at the configured factor, so the n-th
retry (n ≥ 1) sleeps `backoff_factor * 2^(n-1)` time units. -/
def backoffDelay (cfg : RetryCfg) (n : Nat) : ℚ :=
  cfg.backoffFactor * 2 ^ (n - 1)

/-- The typed failures of the fetch path. The source raises `ValueError`
or `RuntimeError` with four distinct message shapes; each is modelled as a
constructor carrying what the message carries. -/
inductive FetchErr where
  | invalidCoordinate : FetchErr
  | httpError (status : Nat) (bodySample : List Char) : FetchErr
  | contentTypeError (declared : String) (bodySample : List Char) : FetchErr
  | decodeError (bodySample : List Char) : FetchErr
deriving DecidableEq

/-- `(r.text or "")[:200].replace("\n", " ")`: at most 200 characters of
the body, with newlines blanked (both arguments of `replace` are single
characters, so it acts character-wise). -/
def truncSample (body : List Char) : List Char :=
  (body.take 200).map (fun c => if c = Char.ofNat 10 then Char.ofNat 32 else c)

/-- Contiguous-substring test over characters, the semantics of Python's
`needle in haystack` on strings. -/
def hasSub (needle : List Char) : List Char → Bool
  | [] => needle.isEmpty
  | c :: rest => needle.isPrefixOf (c :: rest) || hasSub needle rest

/-- Python's `"application/json" in ct` over the characters of the header
value. -/
def ctHasJson (ct : String) : Bool :=
  hasSub (String.toList ("application/json")) ct.toList

/-- The coordinate guard that opens `fetch_smhi`
(`if not (-90 <= lat <= 90 and -180 <= lon <= 180): raise ValueError(...)`),
phrased as the spec's `validate`: an in-range pair passes through
unchanged. -/
def validateCoord (lat lon : ℚ) : Except FetchErr (ℚ × ℚ) :=
  if (-90 ≤ lat ∧ lat ≤ 90) ∧ (-180 ≤ lon ∧ lon ≤ 180) then .ok (lat, lon)
  else .error .invalidCoordinate

/-- The `Retry(total=3, ..., raise_on_status=False)` loop of `urllib3`,
driven by an upstream modelled as the sequence of responses it gives to
attempt 0, 1, 2, …: a forcelisted status consumes one remaining retry and
re-issues the GET; otherwise, or once retries are exhausted, the last
response is returned together with the number of attempts made so far. -/
def retryLoop (upstream : Nat → HttpResponse) (i : Nat) : Nat → HttpResponse × Nat
  | 0 => (upstream i, i + 1)
  | remaining + 1 =>
    if (upstream i).status ∈ retryCfg.statusForcelist then
      retryLoop upstream (i + 1) remaining
    else (upstream i, i + 1)

/-- `fetch_smhi(lat, lon)` against a modelled upstream: validate the
coordinates before any network traffic, run the retrying GET, then
`r.raise_for_status()` (4xx/5xx raises), the `Content-Type` check, and
`r.json()` decoding, each failure carrying a truncated body sample.
Returns the outcome together with the number of attempts made. -/
def fetch_smhi (lat lon : ℚ) (upstream : Nat → HttpResponse) :
    Except FetchErr SmhiPayload × Nat :=
  match validateCoord lat lon with
  | .error e => (.error e, 0)
  | .ok _ =>
    let p := retryLoop upstream 0 retryCfg.total
    let r := p.1
    if 400 ≤ r.status ∧ r.status < 600 then
      (.error (.httpError r.status (truncSample r.body)), p.2)
    else if ctHasJson r.contentType = false then
      (.error (.contentTypeError r.contentType (truncSample r.body)), p.2)
    else
      match r.jsonBody with
      | none => (.error (.decodeError (truncSample r.body)), p.2)
      | some payload => (.ok payload, p.2)

/-- Latitude in [-90, 90] and longitude in [-180, 180], as the guard
tests them. -/
def inRange (lat lon : ℚ) : Prop :=
  (-90 ≤ lat ∧ lat ≤ 90) ∧ (-180 ≤ lon ∧ lon ≤ 180)

/-- C1: contrary to the claim, a payload with absent/null or empty
`timeSeries` does not normalize to an empty table: the row list is empty,
`pd.DataFrame([])` has no `time` column, and `sort_values("time")` raises
`KeyError` — the program fails on exactly these inputs. -/
theorem smhi_to_df_empty_raises :
    smhi_to_df { approvedTime := none, timeSeries := none } =
      .error .noTimeColumn ∧
    smhi_to_df { approvedTime := none, timeSeries := some [] } =
      .error .noTimeColumn :=
  ⟨rfl, rfl⟩

/-- A row with the given time and no parameter data: every cell NaN except
precipitation, which defaults to `0.0`. -/
def rowAt (t : Int) : Row :=
  { time := t
    temp_C := .nan
    wind_ms := .nan
    gust_ms := .nan
    precip_mm_h := .num 0
    cloud_okta := .nan
    msl_hPa := .nan
    rh_pct := .nan
    wind_deg := .nan }

/-- An entry with a well-formed validTime and no parameters. -/
def entryAt (t : Int) : TsEntry :=
  { validTime := some (.parses t), parameters := none }

/-- The fill pass does not touch the time field. -/
theorem fillPrecip_time (r : Row) : (fillPrecip r).time = r.time := rfl

/-- Eliminating a successful normalization: the entry loop succeeded on a
non-empty row list, and the table is its sorted, precipitation-filled
image. -/
theorem smhi_to_df_ok_elim (p : SmhiPayload) (t : List Row)
    (h : smhi_to_df p = .ok t) :
    ∃ rows, rowsOf (p.timeSeries.getD []) = .ok rows ∧ rows ≠ [] ∧
      t = (List.insertionSort rowLE rows).map fillPrecip := by
  unfold smhi_to_df at h
  cases hr : rowsOf (p.timeSeries.getD []) with
  | error err => rw [hr] at h; exact absurd h (by simp)
  | ok rows =>
    rw [hr] at h
    cases rows with
    | nil => exact absurd h (by simp)
    | cons r0 rest =>
      simp only [List.isEmpty_cons, Bool.false_eq_true, if_false] at h
      injection h with h
      exact ⟨r0 :: rest, rfl, by simp, h.symm⟩

/-- A successfully normalized table is sorted by the time order. -/
theorem smhi_to_df_ok_sorted (p : SmhiPayload) (t : List Row)
    (h : smhi_to_df p = .ok t) : t.Sorted rowLE := by
  obtain ⟨rows, -, -, rfl⟩ := smhi_to_df_ok_elim p t h
  show List.Pairwise rowLE ((List.insertionSort rowLE rows).map fillPrecip)
  rw [List.pairwise_map]
  exact (List.sorted_insertionSort rowLE rows).imp (fun hab => hab)

/-- C2: every table produced by `smhi_to_df` is sorted ascending by time:
adjacent rows satisfy `table[i].time ≤ table[i+1].time`. -/
theorem smhi_to_df_sorted_adjacent (p : SmhiPayload) (t : List Row)
    (h : smhi_to_df p = .ok t) (i : Nat) (a b : Row)
    (ha : t[i]? = some a) (hb : t[i + 1]? = some b) : a.time ≤ b.time := by
  have hs := smhi_to_df_ok_sorted p t h
  rcases List.getElem?_eq_some_iff.mp ha with ⟨hi, rfl⟩
  rcases List.getElem?_eq_some_iff.mp hb with ⟨hi1, rfl⟩
  have := hs.rel_get_of_lt
    (a := ⟨i, hi⟩) (b := ⟨i + 1, hi1⟩) (Nat.lt_succ_self i)
  simpa [rowLE] using this

/-- A payload with two entries whose times arrive out of order. -/
def payC2 : SmhiPayload :=
  { approvedTime := none, timeSeries := some [entryAt 5, entryAt 3] }

theorem smhi_to_df_sorted_adjacent_witness :
    smhi_to_df payC2 = .ok [rowAt 3, rowAt 5] ∧ (rowAt 3).time ≤ (rowAt 5).time :=
  ⟨rfl, smhi_to_df_sorted_adjacent payC2 [rowAt 3, rowAt 5] rfl 0
    (rowAt 3) (rowAt 5) rfl rfl⟩

/-- The filled precipitation cell is never the NaN sentinel. -/
theorem fillPrecip_ne_nan (r : Row) : (fillPrecip r).precip_mm_h ≠ Val.nan := by
  cases hp : r.precip_mm_h <;> simp [fillPrecip, hp]

/-- C4: no row of a normalized table carries NaN precipitation; an absent
`pmean` parameter defaults to `0.0`, and the post-pass coerces any
remaining NaN precipitation to `0.0`. -/
theorem precip_never_nan :
    (∀ (p : SmhiPayload) (t : List Row), smhi_to_df p = .ok t →
      ∀ r ∈ t, r.precip_mm_h ≠ Val.nan) ∧
    (∀ ps : List SmhiParam, (∀ q ∈ ps, q.name ≠ some ("pmean")) →
      safe_get_param ps ("pmean") (.num 0) = .num 0) ∧
    (∀ r : Row, (fillPrecip r).precip_mm_h ≠ Val.nan) := by
  refine ⟨?_, ?_, fillPrecip_ne_nan⟩
  · intro p t h r hr
    obtain ⟨rows, -, -, rfl⟩ := smhi_to_df_ok_elim p t h
    rcases List.mem_map.mp hr with ⟨r0, _, rfl⟩
    exact fillPrecip_ne_nan r0
  · intro ps hps
    induction ps with
    | nil => rfl
    | cons q rest ih =>
      simp only [safe_get_param]
      rw [if_neg (hps q (List.mem_cons_self q rest))]
      exact ih (fun q2 hq2 => hps q2 (List.mem_cons_of_mem q hq2))

/-- A payload whose single entry has `pmean` present with an explicitly
empty value array. -/
def payC4 : SmhiPayload :=
  { approvedTime := none
    timeSeries := some
      [{ validTime := some (.parses 7)
         parameters := some [{ name := some ("pmean"), values := some [] }] }] }

theorem precip_never_nan_witness : (rowAt 7).precip_mm_h ≠ Val.nan :=
  precip_never_nan.1 payC4 [rowAt 7] rfl (rowAt 7) (by simp)

/-- Where the idxmin scan lands: it returns the element sitting at the
first index of `best :: l` attaining the minimal distance to `now`. -/
theorem pickGo_first_min (now : Int) :
    ∀ (l : List Row) (best : Row), ∃ i : Nat,
      (best :: l)[i]? = some (pickGo now best l) ∧
      (∀ (j : Nat) (s : Row), (best :: l)[j]? = some s →
        absDist (pickGo now best l) now ≤ absDist s now) ∧
      (∀ (j : Nat) (s : Row), j < i → (best :: l)[j]? = some s →
        absDist (pickGo now best l) now < absDist s now) := by
  intro l
  induction l with
  | nil =>
    intro best
    refine ⟨0, rfl, ?_, ?_⟩
    · intro j s hj
      cases j with
      | zero =>
        simp only [List.getElem?_cons_zero] at hj
        injection hj with hj
        subst hj
        exact le_refl _
      | succ j => simp at hj
    · intro j s hj
      omega
  | cons r rs ih =>
    intro best
    by_cases hlt : absDist r now < absDist best now
    · obtain ⟨i, hi, hmin, hfirst⟩ := ih r
      have hgo : pickGo now best (r :: rs) = pickGo now r rs := by
        simp [pickGo, hlt]
      rw [hgo]
      have hmr : absDist (pickGo now r rs) now ≤ absDist r now :=
        hmin 0 r (by simp)
      refine ⟨i + 1, by simpa using hi, ?_, ?_⟩
      · intro j s hj
        cases j with
        | zero =>
          simp only [List.getElem?_cons_zero] at hj
          injection hj with hj
          subst hj
          exact le_of_lt (lt_of_le_of_lt hmr hlt)
        | succ j =>
          simp only [List.getElem?_cons_succ] at hj
          exact hmin j s hj
      · intro j s hji hj
        cases j with
        | zero =>
          simp only [List.getElem?_cons_zero] at hj
          injection hj with hj
          subst hj
          exact lt_of_le_of_lt hmr hlt
        | succ j =>
          simp only [List.getElem?_cons_succ] at hj
          exact hfirst j s (by omega) hj
    · obtain ⟨i, hi, hmin, hfirst⟩ := ih best
      have hgo : pickGo now best (r :: rs) = pickGo now best rs := by
        simp [pickGo, hlt]
      rw [hgo]
      have hbr : absDist best now ≤ absDist r now := Nat.le_of_not_lt hlt
      have hmb : absDist (pickGo now best rs) now ≤ absDist best now :=
        hmin 0 best (by simp)
      cases i with
      | zero =>
        have hmbest : pickGo now best rs = best := by
          simp only [List.getElem?_cons_zero] at hi
          injection hi with hi
          exact hi.symm
        refine ⟨0, ?_, ?_, ?_⟩
        · simp [hmbest]
        · intro j s hj
          cases j with
          | zero =>
            simp only [List.getElem?_cons_zero] at hj
            injection hj with hj
            subst hj
            exact hmb
          | succ j =>
            cases j with
            | zero =>
              simp only [List.getElem?_cons_succ, List.getElem?_cons_zero] at hj
              injection hj with hj
              subst hj
              exact le_trans hmb hbr
            | succ j =>
              simp only [List.getElem?_cons_succ] at hj
              exact hmin (j + 1) s (by simpa using hj)
        · intro j s hji hj
          omega
      | succ k =>
        have hm0 : absDist (pickGo now best rs) now < absDist best now :=
          hfirst 0 best (Nat.succ_pos k) (by simp)
        refine ⟨k + 2, ?_, ?_, ?_⟩
        · simp only [List.getElem?_cons_succ]
          simpa using hi
        · intro j s hj
          cases j with
          | zero =>
            simp only [List.getElem?_cons_zero] at hj
            injection hj with hj
            subst hj
            exact hmb
          | succ j =>
            cases j with
            | zero =>
              simp only [List.getElem?_cons_succ, List.getElem?_cons_zero] at hj
              injection hj with hj
              subst hj
              exact le_trans hmb hbr
            | succ j =>
              simp only [List.getElem?_cons_succ] at hj
              exact hmin (j + 1) s (by simpa using hj)
        · intro j s hji hj
          cases j with
          | zero =>
            simp only [List.getElem?_cons_zero] at hj
            injection hj with hj
            subst hj
            exact hm0
          | succ j =>
            cases j with
            | zero =>
              simp only [List.getElem?_cons_succ, List.getElem?_cons_zero] at hj
              injection hj with hj
              subst hj
              exact lt_of_lt_of_le hm0 hbr
            | succ j =>
              simp only [List.getElem?_cons_succ] at hj
              exact hfirst (j + 1) s (by omega) (by simpa using hj)

/-- C3: `pick_current_row` fails exactly on the empty table; any returned
row attains the minimum absolute time distance to `now`, and every row at
a strictly earlier index is strictly farther from `now` (so equidistant
ties resolve to the earlier index); on a one-row table it returns that row
for every `now`. -/
theorem pick_current_row_spec :
    (∀ (t : List Row) (now : Int), pick_current_row t now = none ↔ t = []) ∧
    (∀ (t : List Row) (now : Int) (m : Row), pick_current_row t now = some m →
      ∃ i : Nat, t[i]? = some m ∧
        (∀ (j : Nat) (s : Row), t[j]? = some s → absDist m now ≤ absDist s now) ∧
        (∀ (j : Nat) (s : Row), j < i → t[j]? = some s → absDist m now < absDist s now)) ∧
    (∀ (r : Row) (now : Int), pick_current_row [r] now = some r) := by
  refine ⟨?_, ?_, ?_⟩
  · intro t now
    cases t <;> simp [pick_current_row]
  · intro t now m h
    cases t with
    | nil => simp [pick_current_row] at h
    | cons r rs =>
      simp only [pick_current_row] at h
      injection h with h
      obtain ⟨i, hi, hmin, hfirst⟩ := pickGo_first_min now rs r
      subst h
      exact ⟨i, hi, hmin, hfirst⟩
  · intro r now
    rfl

theorem pick_current_row_spec_witness :
    ∃ i : Nat, ([rowAt 0, rowAt 10])[i]? = some (rowAt 0) ∧
      (∀ (j : Nat) (s : Row), ([rowAt 0, rowAt 10])[j]? = some s →
        absDist (rowAt 0) 5 ≤ absDist s 5) ∧
      (∀ (j : Nat) (s : Row), j < i → ([rowAt 0, rowAt 10])[j]? = some s →
        absDist (rowAt 0) 5 < absDist s 5) :=
  pick_current_row_spec.2.1 [rowAt 0, rowAt 10] 5 (rowAt 0) rfl

/-- C5: `df_window` keeps exactly the rows whose time lies in the closed
interval `[now, now + hours]` (both boundaries included, everything
outside excluded), in table order, and the result can be empty. -/
theorem df_window_spec :
    (∀ (t : List Row) (now : Int) (hours : Nat) (r : Row),
      r ∈ df_window t now hours ↔
        r ∈ t ∧ now ≤ r.time ∧ r.time ≤ now + 3600 * (hours : Int)) ∧
    (∀ (t : List Row) (now : Int) (hours : Nat),
      (df_window t now hours).Sublist t) ∧
    (∃ (t : List Row) (now : Int) (hours : Nat),
      t ≠ [] ∧ df_window t now hours = []) := by
  refine ⟨?_, ?_, ⟨[rowAt 0], 1, 0, by simp, rfl⟩⟩
  · intro t now hours r
    simp [df_window, List.mem_filter, inWindow, and_assoc]
  · intro t now hours
    exact List.filter_sublist t

/-- An in-range coordinate pair passes the guard unchanged. -/
theorem validateCoord_inRange (lat lon : ℚ) (h : inRange lat lon) :
    validateCoord lat lon = .ok (lat, lon) := by
  unfold inRange at h
  unfold validateCoord
  split
  · rfl
  · exact absurd h (by assumption)

/-- An out-of-range coordinate pair trips the guard. -/
theorem validateCoord_outRange (lat lon : ℚ)
    (h : lat < -90 ∨ 90 < lat ∨ lon < -180 ∨ 180 < lon) :
    validateCoord lat lon = .error .invalidCoordinate := by
  unfold validateCoord
  split
  · rename_i hc
    rcases hc with ⟨⟨h1, h2⟩, h3, h4⟩
    rcases h with h | h | h | h <;> linarith
  · rfl

/-- C6: the guard accepts exactly the coordinates with latitude in
[-90, 90] and longitude in [-180, 180], returning them unchanged; an
out-of-range pair makes `fetch_smhi` fail with the invalid-coordinate
error after zero attempts, i.e. before any network call. -/
theorem validateCoord_spec :
    (∀ lat lon : ℚ, inRange lat lon → validateCoord lat lon = .ok (lat, lon)) ∧
    (∀ lat lon : ℚ, lat < -90 ∨ 90 < lat ∨ lon < -180 ∨ 180 < lon →
      validateCoord lat lon = .error .invalidCoordinate) ∧
    (∀ (lat lon : ℚ) (upstream : Nat → HttpResponse),
      lat < -90 ∨ 90 < lat ∨ lon < -180 ∨ 180 < lon →
      fetch_smhi lat lon upstream = (.error .invalidCoordinate, 0)) := by
  refine ⟨validateCoord_inRange, validateCoord_outRange, ?_⟩
  intro lat lon upstream h
  unfold fetch_smhi
  rw [validateCoord_outRange lat lon h]

/-- A 503 response with a plain-text body. -/
def resp503 : HttpResponse :=
  { status := 503
    contentType := "text/plain"
    body := String.toList ("busy")
    jsonBody := none }

/-- A successful JSON response. -/
def resp200 : HttpResponse :=
  { status := 200
    contentType := "application/json; charset=utf-8"
    body := []
    jsonBody := some { approvedTime := none, timeSeries := none } }

/-- A 200 response declaring HTML instead of JSON. -/
def respHtml : HttpResponse :=
  { status := 200
    contentType := "text/html"
    body := String.toList ("<html>oops</html>")
    jsonBody := none }

theorem validateCoord_spec_witness :
    validateCoord 59 18 = .ok (59, 18) ∧
    fetch_smhi 91 0 (fun _ => resp200) = (.error .invalidCoordinate, 0) :=
  ⟨validateCoord_spec.1 59 18 (by norm_num [inRange]),
    validateCoord_spec.2.2 91 0 (fun _ => resp200)
      (Or.inr (Or.inl (by norm_num)))⟩

/-- Inside a sector centred on multiple `k` of 22.5°, the floor lands on
`k`, so the label is the one at index `k mod 16`. -/
theorem deg_sector (q : ℚ) (k : ℤ)
    (h1 : (k : ℚ) * 22.5 - 11.25 ≤ q) (h2 : q < (k : ℚ) * 22.5 + 11.25) :
    deg_to_cardinal (.num q) = compassDirs.getD ((k % 16).toNat) ("") := by
  have hf : ⌊(q + 11.25) / 22.5⌋ = k := by
    rw [Int.floor_eq_iff]
    constructor
    · rw [le_div_iff₀ (by norm_num : (0 : ℚ) < 22.5)]
      linarith
    · rw [div_lt_iff₀ (by norm_num : (0 : ℚ) < 22.5)]
      linarith
  simp only [deg_to_cardinal]
  rw [hf]

/-- C7: the cardinal helper returns the dash exactly on NaN, and maps a
number falling in the sector around `k * 22.5°` (offset ±11.25°) to the
label at index `k mod 16`; in particular 0° and 359° map to N and 180°
to S. -/
theorem cardinal_spec :
    deg_to_cardinal Val.nan = "—" ∧
    (∀ q : ℚ, deg_to_cardinal (.num q) ≠ "—") ∧
    deg_to_cardinal (.num 0) = "N" ∧
    deg_to_cardinal (.num 359) = "N" ∧
    deg_to_cardinal (.num 180) = "S" ∧
    (∀ (q : ℚ) (k : ℤ), (k : ℚ) * 22.5 - 11.25 ≤ q →
      q < (k : ℚ) * 22.5 + 11.25 →
      deg_to_cardinal (.num q) = compassDirs.getD ((k % 16).toNat) ("")) := by
  refine ⟨rfl, ?_, ?_, ?_, ?_, deg_sector⟩
  · intro q
    simp only [deg_to_cardinal]
    have h1 : 0 ≤ ⌊(q + 11.25) / 22.5⌋ % 16 := Int.emod_nonneg _ (by norm_num)
    have h2 : ⌊(q + 11.25) / 22.5⌋ % 16 < 16 := Int.emod_lt_of_pos _ (by norm_num)
    have h3 : (⌊(q + 11.25) / 22.5⌋ % 16).toNat < 16 := by omega
    generalize (⌊(q + 11.25) / 22.5⌋ % 16).toNat = ix at h3
    interval_cases ix <;> decide
  · rw [deg_sector 0 0 (by norm_num) (by norm_num)]
    rfl
  · rw [deg_sector 359 16 (by push_cast; norm_num) (by push_cast; norm_num)]
    rfl
  · rw [deg_sector 180 8 (by push_cast; norm_num) (by push_cast; norm_num)]
    rfl

theorem cardinal_spec_witness :
    deg_to_cardinal (.num 100) = compassDirs.getD (((4 : ℤ) % 16).toNat) ("") :=
  cardinal_spec.2.2.2.2.2 100 4 (by norm_num) (by norm_num)

/-- A response whose status is off the forcelist ends the retry loop at
once. -/
theorem retryLoop_stop (upstream : Nat → HttpResponse) (i n : Nat)
    (h : (upstream i).status ∉ retryCfg.statusForcelist) :
    retryLoop upstream i n = (upstream i, i + 1) := by
  cases n with
  | zero => rfl
  | succ n => simp [retryLoop, h]

/-- A forcelisted status consumes one remaining retry. -/
theorem retryLoop_step (upstream : Nat → HttpResponse) (i n : Nat)
    (h : (upstream i).status ∈ retryCfg.statusForcelist) :
    retryLoop upstream i (n + 1) = retryLoop upstream (i + 1) n := by
  simp [retryLoop, h]

/-- The truncated body sample never exceeds 200 characters. -/
theorem truncSample_length (body : List Char) :
    (truncSample body).length ≤ 200 := by
  simp [truncSample]

/-- C8: the session retries exactly on statuses {429, 500, 502, 503, 504}
with at most `total = 3` retries and backoff factor 0.5 (delays 0.5, 1, 2);
an upstream answering 503 three times and then a good 200 succeeds after
exactly 4 attempts; an upstream always answering 503 fails with the HTTP
error after exactly 4 attempts; a first status off the forcelist means a
single attempt. -/
theorem fetch_retry_spec :
    (retryCfg.total = 3 ∧ retryCfg.backoffFactor = 0.5 ∧
      retryCfg.statusForcelist = [429, 500, 502, 503, 504] ∧
      retryCfg.allowedMethods = ["GET"] ∧
      backoffDelay retryCfg 1 = 0.5 ∧ backoffDelay retryCfg 2 = 1 ∧
      backoffDelay retryCfg 3 = 2) ∧
    (∀ (lat lon : ℚ) (upstream : Nat → HttpResponse) (pl : SmhiPayload),
      inRange lat lon →
      (upstream 0).status = 503 → (upstream 1).status = 503 →
      (upstream 2).status = 503 → (upstream 3).status = 200 →
      ctHasJson (upstream 3).contentType = true →
      (upstream 3).jsonBody = some pl →
      fetch_smhi lat lon upstream = (.ok pl, 4)) ∧
    (∀ (lat lon : ℚ) (upstream : Nat → HttpResponse),
      inRange lat lon →
      (∀ i, (upstream i).status = 503) →
      fetch_smhi lat lon upstream =
        (.error (.httpError 503 (truncSample (upstream 3).body)), 4)) ∧
    (∀ (lat lon : ℚ) (upstream : Nat → HttpResponse),
      inRange lat lon →
      (upstream 0).status ∉ retryCfg.statusForcelist →
      (fetch_smhi lat lon upstream).2 = 1) := by
  refine ⟨by norm_num [retryCfg, backoffDelay], ?_, ?_, ?_⟩
  · intro lat lon upstream pl hin h0 h1 h2 h3 hct hjson
    have hl : retryLoop upstream 0 retryCfg.total = (upstream 3, 4) := by
      show retryLoop upstream 0 3 = (upstream 3, 4)
      rw [retryLoop_step upstream 0 2 (by rw [h0]; decide),
        retryLoop_step upstream 1 1 (by rw [h1]; decide),
        retryLoop_step upstream 2 0 (by rw [h2]; decide)]
      rfl
    have hno : ¬(400 ≤ (upstream 3).status ∧ (upstream 3).status < 600) := by
      omega
    simp [fetch_smhi, validateCoord_inRange lat lon hin, hl, hno, hct, hjson]
  · intro lat lon upstream hin hst
    have hl : retryLoop upstream 0 retryCfg.total = (upstream 3, 4) := by
      show retryLoop upstream 0 3 = (upstream 3, 4)
      rw [retryLoop_step upstream 0 2 (by rw [hst 0]; decide),
        retryLoop_step upstream 1 1 (by rw [hst 1]; decide),
        retryLoop_step upstream 2 0 (by rw [hst 2]; decide)]
      rfl
    have hyes : 400 ≤ (upstream 3).status ∧ (upstream 3).status < 600 := by
      rw [hst 3]; omega
    simp [fetch_smhi, validateCoord_inRange lat lon hin, hl, hyes, hst 3]
  · intro lat lon upstream hin hnot
    have hl := retryLoop_stop upstream 0 retryCfg.total hnot
    simp only [fetch_smhi, validateCoord_inRange lat lon hin, hl]
    split
    · rfl
    · split
      · rfl
      · split <;> rfl

/-- An upstream answering 503 on the first three attempts, then JSON. -/
def upMix : Nat → HttpResponse := fun i => if i < 3 then resp503 else resp200

/-- An upstream answering 503 forever. -/
def upAll : Nat → HttpResponse := fun _ => resp503

theorem fetch_retry_spec_witness :
    fetch_smhi 59 18 upMix =
      (.ok { approvedTime := none, timeSeries := none }, 4) ∧
    fetch_smhi 59 18 upAll =
      (.error (.httpError 503 (truncSample (upAll 3).body)), 4) :=
  ⟨fetch_retry_spec.2.1 59 18 upMix { approvedTime := none, timeSeries := none }
      (by norm_num [inRange]) rfl rfl rfl rfl (by decide) rfl,
    fetch_retry_spec.2.2.1 59 18 upAll (by norm_num [inRange]) (fun _ => rfl)⟩

/-- C9: a 2xx response declaring a non-JSON content type makes the fetch
fail with the content-type error — not the HTTP or decode error — carrying
the declared type and a body sample of at most 200 characters, after a
single attempt. -/
theorem fetch_content_type_spec :
    ∀ (lat lon : ℚ) (upstream : Nat → HttpResponse),
      inRange lat lon →
      200 ≤ (upstream 0).status → (upstream 0).status < 300 →
      ctHasJson (upstream 0).contentType = false →
      fetch_smhi lat lon upstream =
        (.error (.contentTypeError (upstream 0).contentType
          (truncSample (upstream 0).body)), 1) ∧
      (truncSample (upstream 0).body).length ≤ 200 := by
  intro lat lon upstream hin h2 h3 hct
  have hnot : (upstream 0).status ∉ retryCfg.statusForcelist := by
    intro hmem
    simp only [retryCfg, List.mem_cons, List.not_mem_nil, or_false] at hmem
    omega
  have hl := retryLoop_stop upstream 0 retryCfg.total hnot
  have hno : ¬(400 ≤ (upstream 0).status ∧ (upstream 0).status < 600) := by
    omega
  refine ⟨?_, truncSample_length _⟩
  simp [fetch_smhi, validateCoord_inRange lat lon hin, hl, hno, hct]

/-- An upstream answering 200 with an HTML page. -/
def upHtml : Nat → HttpResponse := fun _ => respHtml

theorem fetch_content_type_spec_witness :
    fetch_smhi 59 18 upHtml =
      (.error (.contentTypeError (upHtml 0).contentType
        (truncSample (upHtml 0).body)), 1) ∧
    (truncSample (upHtml 0).body).length ≤ 200 :=
  fetch_content_type_spec 59 18 upHtml (by norm_num [inRange])
    (by decide) (by decide) (by decide)

/-- The entry loop succeeds exactly when every entry converts. -/
theorem rowsOf_ok_iff (es : List TsEntry) :
    (∃ rows, rowsOf es = .ok rows) ↔ ∀ e ∈ es, ∃ r, rowOfEntry e = .ok r := by
  induction es with
  | nil => simp [rowsOf]
  | cons e es ih =>
    constructor
    · rintro ⟨rows, h⟩
      simp only [rowsOf] at h
      cases he : rowOfEntry e with
      | error err => rw [he] at h; exact absurd h (by simp)
      | ok r =>
        rw [he] at h
        cases hr : rowsOf es with
        | error err => rw [hr] at h; exact absurd h (by simp)
        | ok rs =>
          intro e2 he2
          rcases List.mem_cons.mp he2 with rfl | hmem
          · exact ⟨r, he⟩
          · exact ih.mp ⟨rs, hr⟩ e2 hmem
    · intro h
      obtain ⟨r, hr⟩ := h e (List.mem_cons_self e es)
      obtain ⟨rs, hrs⟩ := ih.mpr (fun e2 he2 => h e2 (List.mem_cons_of_mem e he2))
      exact ⟨r :: rs, by simp [rowsOf, hr, hrs]⟩

/-- The entry loop yields one row per entry. -/
theorem rowsOf_length (es : List TsEntry) (rows : List Row)
    (h : rowsOf es = .ok rows) : rows.length = es.length := by
  induction es generalizing rows with
  | nil =>
    simp only [rowsOf] at h
    injection h with h
    subst h
    rfl
  | cons e es ih =>
    simp only [rowsOf] at h
    cases he : rowOfEntry e with
    | error err => rw [he] at h; exact absurd h (by simp)
    | ok r =>
      rw [he] at h
      cases hr : rowsOf es with
      | error err => rw [hr] at h; exact absurd h (by simp)
      | ok rs =>
        rw [hr] at h
        injection h with h
        subst h
        simp [ih rs hr]

/-- A payload with no timeSeries at all. -/
def payNone : SmhiPayload := { approvedTime := none, timeSeries := none }

/-- C10 counterexample: the empty payload makes the parseability
precondition vacuously true, yet `smhi_to_df` raises (the `KeyError` from
`sort_values("time")` on the column-less empty frame) rather than
returning a table. -/
theorem normalize_totality_counterexample :
    (∀ e ∈ payNone.timeSeries.getD [], ∃ t, e.validTime = some (.parses t)) ∧
    smhi_to_df payNone = .error .noTimeColumn := by
  constructor
  · intro e he
    exact absurd he (by simp [payNone])
  · rfl

/-- C10 (amended): on a payload whose `timeSeries` is non-empty and whose
entries all carry a parseable `validTime`, `smhi_to_df` does not raise;
and on any payload some entry of which lacks the `validTime` key it fails
with an exception — it neither skips such an entry nor substitutes a
default. -/
theorem normalize_validTime_nonempty_totality :
    (∀ p : SmhiPayload,
      p.timeSeries.getD [] ≠ [] →
      (∀ e ∈ p.timeSeries.getD [], ∃ t, e.validTime = some (.parses t)) →
      ∃ rows, smhi_to_df p = .ok rows) ∧
    (∀ p : SmhiPayload,
      (∃ e ∈ p.timeSeries.getD [], e.validTime = none) →
      ∃ err, smhi_to_df p = .error err) := by
  constructor
  · intro p hne h
    have hall : ∀ e ∈ p.timeSeries.getD [], ∃ r, rowOfEntry e = .ok r := by
      intro e he
      obtain ⟨t, ht⟩ := h e he
      simp only [rowOfEntry, ht, utc_to_local]
      exact ⟨_, rfl⟩
    obtain ⟨rows, hr⟩ := (rowsOf_ok_iff _).mpr hall
    have hlen := rowsOf_length _ _ hr
    have hrne : rows ≠ [] := by
      intro hnil
      apply hne
      rw [hnil] at hlen
      exact List.length_eq_zero.mp hlen.symm
    have hemp : rows.isEmpty = false := by
      cases rows with
      | nil => exact absurd rfl hrne
      | cons a l => rfl
    refine ⟨(List.insertionSort rowLE rows).map fillPrecip, ?_⟩
    simp [smhi_to_df, hr, hemp]
  · intro p h
    obtain ⟨e, he, hnone⟩ := h
    cases hr : rowsOf (p.timeSeries.getD []) with
    | error err => exact ⟨err, by simp [smhi_to_df, hr]⟩
    | ok rows =>
      obtain ⟨r, hrow⟩ := (rowsOf_ok_iff _).mp ⟨rows, hr⟩ e he
      rw [rowOfEntry, hnone] at hrow
      exact absurd hrow (by simp)

/-- A payload whose single entry parses. -/
def payGood : SmhiPayload :=
  { approvedTime := none, timeSeries := some [entryAt 7] }

/-- A payload whose single entry lacks the validTime key. -/
def payBad : SmhiPayload :=
  { approvedTime := none
    timeSeries := some [{ validTime := none, parameters := none }] }

theorem normalize_validTime_nonempty_totality_witness :
    (∃ rows, smhi_to_df payGood = .ok rows) ∧
    (∃ err, smhi_to_df payBad = .error err) :=
  ⟨normalize_validTime_nonempty_totality.1 payGood (by simp [payGood])
      (by
        intro e he
        simp only [payGood, Option.getD_some, List.mem_singleton] at he
        subst he
        exact ⟨7, rfl⟩),
    normalize_validTime_nonempty_totality.2 payBad
      ⟨{ validTime := none, parameters := none }, by simp [payBad], rfl⟩⟩

end MiniWeather
